import Mathlib

/-!
Verification of the MikeStudio isometric robot simulator.

Shallow embedding of the core modules:
* `src/js/iso_handler.js` — `IsometricTilemap` (grid/screen projection, layered
  tile lookup, depth sorting) and `IsometricPlayer` (rotate, moveTo,
  moveForward/moveBackward).
* `src/js/isoMoveExample2.js` — the action queue (`_enqueue` / `_drain`) and
  the multi-step movement helper `_multiStep`.
* `src/js/level_manager.js` — `LevelManager.completeLevel` and `getProgress`.

Modelling conventions: JavaScript numbers that only ever hold exact integer
values are `ℤ`/`ℕ`; screen coordinates (which divide by tile dimensions) are
`ℚ`.  Promise-based sequential code is modelled by explicit state passing; a
promise rejection is an `Except.error`.  `Array.prototype.sort` with a
consistent comparator is modelled by a sort that is a permutation of its
input and sorted with respect to the comparator (`List.insertionSort`, which
like the JS engine sort is stable).
-/

namespace MikeStudio

/-! ## Definitions -/

/-! ### Grid projector (`iso_handler.js` lines 29-45) -/

/-- `IsometricTilemap.gridToScreen(gridX, gridY, z)`:
`x = (gridX - gridY) * (tileWidth / 2)`,
`y = (gridX + gridY) * (tileHeight / 2) - z`. -/
def gridToScreen (tileWidth tileHeight : ℚ) (gridX gridY z : ℚ) : ℚ × ℚ :=
  ((gridX - gridY) * (tileWidth / 2), (gridX + gridY) * (tileHeight / 2) - z)

/-- `IsometricTilemap.screenToGrid(screenX, screenY)`:
`gridX = (screenX/(tileWidth/2) + screenY/(tileHeight/2)) / 2`,
`gridY = (screenY/(tileHeight/2) - screenX/(tileWidth/2)) / 2`,
both floored (`Math.floor`). -/
def screenToGrid (tileWidth tileHeight : ℚ) (screenX screenY : ℚ) : ℤ × ℤ :=
  let gridX := (screenX / (tileWidth / 2) + screenY / (tileHeight / 2)) / 2
  let gridY := (screenY / (tileHeight / 2) - screenX / (tileWidth / 2)) / 2
  (⌊gridX⌋, ⌊gridY⌋)

/-! ### Player state and rotation (`iso_handler.js` lines 265-341) -/

/-- The `IsometricPlayer` fields relevant to movement and rotation:
`gridX`, `gridY`, `direction` (0=South, 1=East, 2=West, 3=North), `isMoving`. -/
structure PlayerState where
  gridX : ℤ
  gridY : ℤ
  direction : ℕ
  isMoving : Bool
deriving Repr, DecidableEq

/-- `const leftSequence = [0, 1, 3, 2]` — South → East → North → West. -/
def leftSequence : List ℕ := [0, 1, 3, 2]

/-- `const rightSequence = [0, 2, 3, 1]` — South → West → North → East. -/
def rightSequence : List ℕ := [0, 2, 3, 1]

/-- JavaScript `Array.prototype.indexOf`: the index of the first occurrence,
or -1 when the element is absent. -/
def jsIndexOf (seq : List ℕ) (d : ℕ) : ℤ :=
  if d ∈ seq then (seq.indexOf d : ℤ) else -1

/-- The direction update of `IsometricPlayer.rotate(delta)`: for `delta < 0`
take `leftSequence[(leftSequence.indexOf(dir) + 1) % 4]`, otherwise
`rightSequence[(rightSequence.indexOf(dir) + 1) % 4]`. -/
def rotateDir (delta : ℤ) (dir : ℕ) : ℕ :=
  if delta < 0 then
    leftSequence.getD ((jsIndexOf leftSequence dir + 1) % 4).toNat 0
  else
    rightSequence.getD ((jsIndexOf rightSequence dir + 1) % 4).toNat 0

/-- `IsometricPlayer.rotate(delta)`: updates the facing direction and always
resolves `true` (the settled value of the returned promise). -/
def rotate (delta : ℤ) (s : PlayerState) : Bool × PlayerState :=
  (true, { s with direction := rotateDir delta s.direction })

/-- The left-turn cycle in the spec's words: South(0) → East(1) → North(3) →
West(2) → South(0). -/
def specLeftCycle : ℕ → ℕ
  | 0 => 1
  | 1 => 3
  | 3 => 2
  | 2 => 0
  | d => d

/-- The right-turn cycle in the spec's words: South(0) → West(2) → North(3) →
East(1) → South(0). -/
def specRightCycle : ℕ → ℕ
  | 0 => 2
  | 2 => 3
  | 3 => 1
  | 1 => 0
  | d => d

/-! ### Layered tilemap lookup and movement
(`iso_handler.js` lines 179-238 and 349-416) -/

/-- A tile sprite as registered by `IsometricTilemap.build`: its grid
coordinates and tile id. -/
structure TSprite where
  gridX : ℤ
  gridY : ℤ
  tileId : ℕ
deriving Repr, DecidableEq

/-- The `IsometricTilemap` fields that movement consults: `mapWidth`,
`mapHeight` and the per-layer sprite registry `layerSprites` (keyed by layer
name). -/
structure Tilemap where
  mapWidth : ℤ
  mapHeight : ℤ
  layerSprites : List (String × List TSprite)
deriving Repr, DecidableEq

/-- `IsometricTilemap.getTileAt(gridX, gridY, layerName)`: `null` when the
layer name is unknown (after a console warning), otherwise the first sprite
of that layer whose grid coordinates match. -/
def getTileAt (m : Tilemap) (gridX gridY : ℤ) (layerName : String) : Option TSprite :=
  match (m.layerSprites.find? (fun p => p.1 == layerName)).map (fun p => p.2) with
  | none => none
  | some sprites => sprites.find? (fun s => s.gridX == gridX && s.gridY == gridY)

/-- `IsometricTilemap.hasTileAt(gridX, gridY, layerName)`:
`getTileAt(...) !== null`. -/
def hasTileAt (m : Tilemap) (gridX gridY : ℤ) (layerName : String) : Bool :=
  (getTileAt m gridX gridY layerName).isSome

/-- `IsometricPlayer.moveTo(gridX, gridY)`: fails returning `false` and
leaving the state untouched when a move is in flight, the target is out of
bounds, or the target cell carries a sprite on the `Props` layer; otherwise
the tween completes with the grid position updated and `isMoving` back to
`false`, resolving `true`.  The pair is the settled promise value and the
post-settlement state. -/
def moveTo (m : Tilemap) (s : PlayerState) (gridX gridY : ℤ) : Bool × PlayerState :=
  if s.isMoving then (false, s)
  else if gridX < 0 ∨ gridX ≥ m.mapWidth ∨ gridY < 0 ∨ gridY ≥ m.mapHeight then (false, s)
  else if hasTileAt m gridX gridY "Props" then (false, s)
  else (true, { s with gridX := gridX, gridY := gridY, isMoving := false })

/-- A cell passes every `moveTo` check: in bounds and free of `Props`-layer
obstructions. -/
def cellFree (m : Tilemap) (x y : ℤ) : Prop :=
  (0 ≤ x ∧ x < m.mapWidth ∧ 0 ≤ y ∧ y < m.mapHeight) ∧
    hasTileAt m x y "Props" = false

instance (m : Tilemap) (x y : ℤ) : Decidable (cellFree m x y) := by
  unfold cellFree
  infer_instance

/-- The one-cell displacement of `_getForwardPosition` / `moveForward`:
South is +y, East +x, West -x, North -y; any other direction value falls
through the `switch` leaving the position unchanged. -/
def forwardDelta : ℕ → ℤ × ℤ
  | 0 => (0, 1)
  | 1 => (1, 0)
  | 2 => (-1, 0)
  | 3 => (0, -1)
  | _ => (0, 0)

/-- The one-cell displacement of `_getBackwardPosition` / `moveBackward`:
the reverse of `forwardDelta`. -/
def backwardDelta : ℕ → ℤ × ℤ
  | 0 => (0, -1)
  | 1 => (-1, 0)
  | 2 => (1, 0)
  | 3 => (0, 1)
  | _ => (0, 0)

/-- The per-iteration target choice of `_multiStep`:
`sign > 0 ? _getForwardPosition(scene) : _getBackwardPosition(scene)`. -/
def stepDelta (sign : ℤ) (dir : ℕ) : ℤ × ℤ :=
  if 0 < sign then forwardDelta dir else backwardDelta dir

/-- `_multiStep(sign, steps)` (`isoMoveExample2.js` lines 447-457): issue up
to `steps` single-cell `moveTo` calls toward the facing direction (or its
reverse), stopping at the first failure with result `false`.  Returns the
settled result, the final player state, and the list of targets passed to
`moveTo`, in order. -/
def multiStep (m : Tilemap) (sign : ℤ) (steps : ℕ) (s : PlayerState) :
    Bool × PlayerState × List (ℤ × ℤ) :=
  match steps with
  | 0 => (true, s, [])
  | n + 1 =>
    let d := stepDelta sign s.direction
    let tx := s.gridX + d.1
    let ty := s.gridY + d.2
    let r := moveTo m s tx ty
    if r.1 then
      let rest := multiStep m sign n r.2
      (rest.1, rest.2.1, (tx, ty) :: rest.2.2)
    else
      (false, r.2, [(tx, ty)])

/-- The expected target sequence of `k` consecutive single-cell steps with
fixed displacement `(dx, dy)` starting at `(gx, gy)`. -/
def stepTargets (gx gy dx dy : ℤ) : ℕ → List (ℤ × ℤ)
  | 0 => []
  | k + 1 => (gx + dx, gy + dy) :: stepTargets (gx + dx) (gy + dy) dx dy k

/-! ### Depth sorting (`iso_handler.js` lines 127-146) -/

/-- The sort keys `updateDepth` reads off each tile sprite: `gridX`, `gridY`
and `gridZ` (the layer index assigned at build time). -/
structure DepthSprite where
  gridX : ℤ
  gridY : ℤ
  gridZ : ℤ
deriving Repr, DecidableEq

/-- The comparator passed to `allSprites.sort` in `updateDepth`: layer index
first, then grid Y, then grid X, each as a numeric difference. -/
def spriteCmp (a b : DepthSprite) : ℤ :=
  if a.gridZ ≠ b.gridZ then a.gridZ - b.gridZ
  else if a.gridY ≠ b.gridY then a.gridY - b.gridY
  else if a.gridX ≠ b.gridX then a.gridX - b.gridX
  else 0

/-- The order realized by the comparator: `a` may precede `b` exactly when
the comparator is non-positive. -/
def spriteOrder (a b : DepthSprite) : Prop := spriteCmp a b ≤ 0

instance : DecidableRel spriteOrder := fun a b => by
  unfold spriteOrder
  infer_instance

instance : IsTotal DepthSprite spriteOrder := by
  constructor
  intro a b
  unfold spriteOrder spriteCmp
  split_ifs <;> omega

instance : IsTrans DepthSprite spriteOrder := by
  constructor
  intro a b c
  unfold spriteOrder spriteCmp
  split_ifs <;> omega

/-- `IsometricTilemap.updateDepth`, sorting phase: `allSprites.sort(cmp)`. -/
def updateDepth (sprites : List DepthSprite) : List DepthSprite :=
  List.insertionSort spriteOrder sprites

/-- The depth-assignment phase of `updateDepth`:
`allSprites.forEach((sprite, index) => sprite.setDepth(index))`, pairing each
sorted sprite with its index starting from `i`. -/
def assignDepthsFrom (i : ℕ) : List DepthSprite → List (DepthSprite × ℕ)
  | [] => []
  | s :: rest => (s, i) :: assignDepthsFrom (i + 1) rest

/-- `updateDepth` end to end: each sprite of the sorted sequence paired with
its assigned depth. -/
def assignDepths (sprites : List DepthSprite) : List (DepthSprite × ℕ) :=
  assignDepthsFrom 0 (updateDepth sprites)

/-- Strict lexicographic precedence on sort keys: smaller layer index, or
same layer and smaller grid Y, or same layer and row and smaller grid X. -/
def spriteLexLT (a b : DepthSprite) : Prop :=
  a.gridZ < b.gridZ ∨
    (a.gridZ = b.gridZ ∧
      (a.gridY < b.gridY ∨ (a.gridY = b.gridY ∧ a.gridX < b.gridX)))

instance : DecidableRel spriteLexLT := fun a b => by
  unfold spriteLexLT
  infer_instance

/-! ### Action queue (`isoMoveExample2.js` lines 342-383)

`_enqueue` appends `{label, fn, resolve, reject}` to `_queue` in call order
and triggers `_drain`, which (guarded by `_running`) shifts one entry at a
time, awaits `fn()`, and resolves that entry's promise with the value or
rejects it with the thrown error before touching the next entry.  Because
the page is single-threaded, calls issued while a drain is in progress are
appended behind the pending entries, so the drain always consumes the
entries in call order; the model therefore takes the queue contents in call
order and produces the trace of starts and settlements. -/

/-- A queue entry: its label and its operation.  The operation reads the
shared scene state and either returns a settled boolean with the updated
state, or raises (carrying the error message) leaving its partial state. -/
structure QEntry (σ : Type) where
  label : String
  fn : σ → Except String Bool × σ

/-- Observable queue events: an entry's operation starting, and its promise
settling (fulfilled with a boolean, or rejected with an error). -/
inductive QEvent where
  | start : ℕ → QEvent
  | settleOk : ℕ → Bool → QEvent
  | settleErr : ℕ → String → QEvent
deriving Repr, DecidableEq

/-- The settlement of entry `i` run against state `s`: `resolve(v)` on a
normal return, `reject(e)` when `fn` raises. -/
def settleEvent {σ : Type} (i : ℕ) (e : QEntry σ) (s : σ) : QEvent :=
  match (e.fn s).1 with
  | .ok v => QEvent.settleOk i v
  | .error msg => QEvent.settleErr i msg

/-- The `while (_queue.length)` loop of `_drain`, numbering entries from
`i`: run one entry, settle its promise, then continue with the rest. -/
def drainFrom {σ : Type} (i : ℕ) (s : σ) : List (QEntry σ) → List QEvent × σ
  | [] => ([], s)
  | e :: rest =>
    let r := e.fn s
    let tail := drainFrom (i + 1) r.2 rest
    (QEvent.start i :: settleEvent i e s :: tail.1, tail.2)

/-- `_drain` over the queue contents in call order: the produced event trace
and the final shared state. -/
def drain {σ : Type} (s : σ) (entries : List (QEntry σ)) : List QEvent × σ :=
  drainFrom 0 s entries

/-- The shared state after running a prefix of entries in call order. -/
def stateAfter {σ : Type} (s : σ) (entries : List (QEntry σ)) : σ :=
  entries.foldl (fun st e => (e.fn st).2) s

/-! ### Level manager (`level_manager.js` lines 94-113) -/

/-- `LevelManager.completeLevel(n)`, the transformation of the persisted
`completed` list: when `n` is absent, push it and sort ascending
(`(a, b) => a - b`); when present, leave the list untouched. -/
def completeLevel (n : ℤ) (completed : List ℤ) : List ℤ :=
  if n ∈ completed then completed
  else List.insertionSort (· ≤ ·) (completed ++ [n])

/-- A JavaScript value as produced by `JSON.parse`. -/
inductive JVal where
  | null : JVal
  | bool : Bool → JVal
  | num : ℚ → JVal
  | str : String → JVal
  | arr : List JVal → JVal
  | obj : List (String × JVal) → JVal

/-- The default progress record `{currentLevel: 1, completed: []}`. -/
def defaultProgress : JVal :=
  JVal.obj [("currentLevel", JVal.num 1), ("completed", JVal.arr [])]

/-- A JSON value that is an integer. -/
def isIntJ : JVal → Bool
  | JVal.num q => q.den == 1
  | _ => false

/-- The spec's `ProgressRecord` shape: an object whose `currentLevel` is an
integer and whose `completed` is an array of integers. -/
def isProgressRecordShape : JVal → Bool
  | JVal.obj fields =>
      (match fields.find? (fun p => p.1 == "currentLevel") with
       | some p => isIntJ p.2
       | none => false) &&
      (match fields.find? (fun p => p.1 == "completed") with
       | some p =>
         match p.2 with
         | JVal.arr entries => entries.all isIntJ
         | _ => false
       | none => false)
  | _ => false

/-- `LevelManager.getProgress()`: `localStorage.getItem` composed with
`JSON.parse` is abstracted by its outcome — `none` when nothing (or a falsy
string) is stored, `some none` when `JSON.parse` throws (caught by the
`try/catch`), `some (some v)` when it parses to `v`.  The stored-and-parsed
value is returned as-is; both failure cases yield the default record. -/
def getProgress (slot : Option (Option JVal)) : JVal :=
  match slot with
  | none => defaultProgress
  | some none => defaultProgress
  | some (some v) => v

/-! ## Helper lemmas -/

/-- A `moveTo` whose target fails the bounds or obstruction check returns
`false` and the unchanged state. -/
theorem moveTo_blocked {m : Tilemap} {s : PlayerState} {x y : ℤ}
    (hmv : s.isMoving = false) (hb : ¬ cellFree m x y) :
    moveTo m s x y = (false, s) := by
  unfold moveTo cellFree at *
  rw [hmv]
  simp only [Bool.false_eq_true, if_false]
  by_cases hbnd : x < 0 ∨ x ≥ m.mapWidth ∨ y < 0 ∨ y ≥ m.mapHeight
  · rw [if_pos hbnd]
  · rw [if_neg hbnd]
    have hprop : hasTileAt m x y "Props" = true := by
      by_contra hc
      exact hb ⟨by omega, by simpa using hc⟩
    rw [if_pos hprop]

/-- A `moveTo` to a free cell from a resting state succeeds with the grid
position updated. -/
theorem moveTo_success {m : Tilemap} {s : PlayerState} {x y : ℤ}
    (hmv : s.isMoving = false) (hf : cellFree m x y) :
    moveTo m s x y = (true, ⟨x, y, s.direction, false⟩) := by
  obtain ⟨⟨h1, h2, h3, h4⟩, hprop⟩ := hf
  unfold moveTo
  rw [hmv]
  simp only [Bool.false_eq_true, if_false]
  rw [if_neg (by omega), if_neg (by simp [hprop])]

/-- The comparator order excludes strict lexicographic precedence the other
way around. -/
theorem spriteOrder_not_lexLT {a b : DepthSprite} (h : spriteOrder a b) :
    ¬ spriteLexLT b a := by
  unfold spriteOrder spriteCmp at h
  unfold spriteLexLT
  split_ifs at h <;> omega

/-- Index lookup in the depth-assignment list: position `i` holds the `i`-th
sorted sprite paired with depth `k + i`. -/
theorem assignDepthsFrom_getElem? (l : List DepthSprite) :
    ∀ (k i : ℕ), (hi : i < l.length) →
      (assignDepthsFrom k l)[i]? = some (l[i], k + i) := by
  induction l with
  | nil =>
    intro k i hi
    simp at hi
  | cons a rest ih =>
    intro k i hi
    cases i with
    | zero => simp [assignDepthsFrom]
    | succ j =>
      simp only [assignDepthsFrom, List.getElem?_cons_succ, List.getElem_cons_succ]
      rw [ih (k + 1) j (by simpa using hi)]
      congr 2
      omega

/-- Trace shape of the drain loop started at entry number `k`: each entry
contributes its start event at position `2i` and its settlement at `2i + 1`,
computed against the state left by its predecessors; the final state is the
fold of all entries. -/
theorem drainFrom_spec {σ : Type} (entries : List (QEntry σ)) :
    ∀ (k : ℕ) (s : σ),
      (drainFrom k s entries).1.length = 2 * entries.length ∧
      (drainFrom k s entries).2 = stateAfter s entries ∧
      ∀ i, (hi : i < entries.length) →
        (drainFrom k s entries).1[2 * i]? = some (QEvent.start (k + i)) ∧
        (drainFrom k s entries).1[2 * i + 1]? =
          some (settleEvent (k + i) entries[i] (stateAfter s (entries.take i))) := by
  induction entries with
  | nil =>
    intro k s
    refine ⟨rfl, rfl, ?_⟩
    intro i hi
    simp at hi
  | cons e rest ih =>
    intro k s
    obtain ⟨ihlen, ihstate, ihidx⟩ := ih (k + 1) (e.fn s).2
    refine ⟨?_, ?_, ?_⟩
    · simp only [drainFrom, List.length_cons]
      rw [ihlen]
      omega
    · simp only [drainFrom]
      rw [ihstate]
      rfl
    · intro i hi
      cases i with
      | zero =>
        refine ⟨?_, ?_⟩
        · simp [drainFrom]
        · simp [drainFrom, stateAfter]
      | succ j =>
        have hj : j < rest.length := by simpa using hi
        obtain ⟨hstart, hsettle⟩ := ihidx j hj
        have e1 : 2 * (j + 1) = (2 * j + 1) + 1 := by omega
        have e2 : 2 * (j + 1) + 1 = (2 * j + 1 + 1) + 1 := by omega
        constructor
        · simp only [drainFrom, e1, List.getElem?_cons_succ]
          rw [hstart]
          congr 2
          omega
        · simp only [drainFrom, e2, List.getElem?_cons_succ]
          rw [hsettle]
          congr 1
          have e3 : k + 1 + j = k + (j + 1) := by omega
          rw [e3]
          rfl

/-! ## Claims -/

/-- C1: round-trip of the projector at height 0: for every in-range integer
grid coordinate, `screenToGrid (gridToScreen x y 0) = (x, y)` exactly, given
the floor-based inverse. -/
theorem c1_roundTrip_gridToScreen (tileWidth tileHeight : ℚ)
    (htw : 0 < tileWidth) (hth : 0 < tileHeight)
    (mapWidth mapHeight x y : ℤ)
    (hx0 : 0 ≤ x) (hx1 : x < mapWidth) (hy0 : 0 ≤ y) (hy1 : y < mapHeight) :
    screenToGrid tileWidth tileHeight
      (gridToScreen tileWidth tileHeight (x : ℚ) (y : ℚ) 0).1
      (gridToScreen tileWidth tileHeight (x : ℚ) (y : ℚ) 0).2 = (x, y) := by
  have htw' : tileWidth ≠ 0 := ne_of_gt htw
  have hth' : tileHeight ≠ 0 := ne_of_gt hth
  simp only [gridToScreen, screenToGrid]
  have hx : ((x - y : ℚ) * (tileWidth / 2) / (tileWidth / 2) +
      ((x + y : ℚ) * (tileHeight / 2) - 0) / (tileHeight / 2)) / 2 = (x : ℚ) := by
    field_simp
  have hy : (((x + y : ℚ) * (tileHeight / 2) - 0) / (tileHeight / 2) -
      (x - y : ℚ) * (tileWidth / 2) / (tileWidth / 2)) / 2 = (y : ℚ) := by
    field_simp
  rw [hx, hy, Int.floor_intCast, Int.floor_intCast]

/-- Witness for C1 at tile size 64×32, cell (3,5) of an 8×8 grid. -/
theorem c1_roundTrip_gridToScreen_witness :
    screenToGrid 64 32 (gridToScreen 64 32 (3 : ℚ) (5 : ℚ) 0).1
      (gridToScreen 64 32 (3 : ℚ) (5 : ℚ) 0).2 = (3, 5) :=
  c1_roundTrip_gridToScreen 64 32 (by norm_num) (by norm_num) 8 8 3 5
    (by norm_num) (by norm_num) (by norm_num) (by norm_num)

/-- C7 counterexample: at tile size 64×32 (the repository's tileset), grid
cell (0,0) with the code's own prop height offset z = 8 projects to a screen
point that `screenToGrid` decodes as (-1,-1), not (0,0): the claimed
round-trip for arbitrary z fails because the z-shifted screen Y feeds
straight into the grid inverse. -/
theorem c7_counterexample :
    screenToGrid 64 32 (gridToScreen 64 32 (0 : ℚ) (0 : ℚ) 8).1
      (gridToScreen 64 32 (0 : ℚ) (0 : ℚ) 8).2 ≠ ((0 : ℤ), (0 : ℤ)) := by
  simp only [screenToGrid, gridToScreen]
  norm_num

/-- C7 (amended): the height offset z shifts only the screen Y component of
`gridToScreen` (screen X is independent of z, and screen Y is the z = 0
value minus z); the round trip through `screenToGrid` returns (x, y) only
when `-tileHeight < z ≤ 0` — in particular at z = 0 — not for arbitrary z. -/
theorem c7_heightOffset_amended (tileWidth tileHeight : ℚ)
    (htw : 0 < tileWidth) (hth : 0 < tileHeight)
    (x y : ℤ) (z : ℚ) (hz0 : -tileHeight < z) (hz1 : z ≤ 0) :
    (gridToScreen tileWidth tileHeight (x : ℚ) (y : ℚ) z).1 =
      (gridToScreen tileWidth tileHeight (x : ℚ) (y : ℚ) 0).1 ∧
    (gridToScreen tileWidth tileHeight (x : ℚ) (y : ℚ) z).2 =
      (gridToScreen tileWidth tileHeight (x : ℚ) (y : ℚ) 0).2 - z ∧
    screenToGrid tileWidth tileHeight
      (gridToScreen tileWidth tileHeight (x : ℚ) (y : ℚ) z).1
      (gridToScreen tileWidth tileHeight (x : ℚ) (y : ℚ) z).2 = (x, y) := by
  have htw' : tileWidth ≠ 0 := ne_of_gt htw
  have hth' : tileHeight ≠ 0 := ne_of_gt hth
  refine ⟨rfl, by simp [gridToScreen], ?_⟩
  simp only [gridToScreen, screenToGrid]
  have hgx : ((x - y : ℚ) * (tileWidth / 2) / (tileWidth / 2) +
      ((x + y : ℚ) * (tileHeight / 2) - z) / (tileHeight / 2)) / 2 =
      (x : ℚ) + (-z / tileHeight) := by
    field_simp
    ring
  have hgy : (((x + y : ℚ) * (tileHeight / 2) - z) / (tileHeight / 2) -
      (x - y : ℚ) * (tileWidth / 2) / (tileWidth / 2)) / 2 =
      (y : ℚ) + (-z / tileHeight) := by
    field_simp
    ring
  have hfrac0 : (0 : ℚ) ≤ -z / tileHeight :=
    div_nonneg (by linarith) (le_of_lt hth)
  have hfrac1 : -z / tileHeight < 1 := by
    rw [div_lt_one hth]
    linarith
  rw [hgx, hgy]
  have h1 : ⌊(x : ℚ) + (-z / tileHeight)⌋ = x := by
    rw [Int.floor_eq_iff]
    constructor <;> linarith
  have h2 : ⌊(y : ℚ) + (-z / tileHeight)⌋ = y := by
    rw [Int.floor_eq_iff]
    constructor <;> linarith
  rw [h1, h2]

/-- Witness for C7 (amended) at tile size 64×32, cell (2,3), z = 0. -/
theorem c7_heightOffset_amended_witness :
    (gridToScreen 64 32 (2 : ℚ) (3 : ℚ) 0).1 =
      (gridToScreen 64 32 (2 : ℚ) (3 : ℚ) 0).1 ∧
    (gridToScreen 64 32 (2 : ℚ) (3 : ℚ) 0).2 =
      (gridToScreen 64 32 (2 : ℚ) (3 : ℚ) 0).2 - 0 ∧
    screenToGrid 64 32 (gridToScreen 64 32 (2 : ℚ) (3 : ℚ) 0).1
      (gridToScreen 64 32 (2 : ℚ) (3 : ℚ) 0).2 = (2, 3) :=
  c7_heightOffset_amended 64 32 (by norm_num) (by norm_num) 2 3 0
    (by norm_num) (by norm_num)

/-- C6: `rotate(delta)` with `delta < 0` steps along the fixed left-turn
cycle South→East→North→West, with `delta > 0` along the fixed right-turn
cycle South→West→North→East; it always resolves `true`; and neither cycle
equals the naive `(dir + 1) % 4` or `(dir + 3) % 4` rule. -/
theorem c6_rotate_cycles (s : PlayerState) (delta : ℤ) (hdir : s.direction < 4) :
    ((delta < 0 → (rotate delta s).2.direction = specLeftCycle s.direction) ∧
     (0 < delta → (rotate delta s).2.direction = specRightCycle s.direction) ∧
     (rotate delta s).1 = true) ∧
    (∃ d, d < 4 ∧ rotateDir (-1) d ≠ (d + 1) % 4) ∧
    (∃ d, d < 4 ∧ rotateDir (-1) d ≠ (d + 3) % 4) ∧
    (∃ d, d < 4 ∧ rotateDir 1 d ≠ (d + 1) % 4) ∧
    (∃ d, d < 4 ∧ rotateDir 1 d ≠ (d + 3) % 4) := by
  refine ⟨⟨?_, ?_, rfl⟩, ?_, ?_, ?_, ?_⟩
  · intro hneg
    simp only [rotate]
    have hd : s.direction = 0 ∨ s.direction = 1 ∨ s.direction = 2 ∨ s.direction = 3 := by
      omega
    simp only [rotateDir, if_pos hneg]
    rcases hd with h | h | h | h <;> rw [h] <;> decide
  · intro hpos
    have hnneg : ¬ delta < 0 := by omega
    simp only [rotate]
    have hd : s.direction = 0 ∨ s.direction = 1 ∨ s.direction = 2 ∨ s.direction = 3 := by
      omega
    simp only [rotateDir, if_neg hnneg]
    rcases hd with h | h | h | h <;> rw [h] <;> decide
  · exact ⟨1, by norm_num, by decide⟩
  · exact ⟨0, by norm_num, by decide⟩
  · exact ⟨0, by norm_num, by decide⟩
  · exact ⟨2, by norm_num, by decide⟩

/-- Witness for C6: a left turn from South lands on East, a right turn from
East lands on South, and rotate resolves `true`. -/
theorem c6_rotate_cycles_witness :
    (rotate (-1) (PlayerState.mk 2 3 0 false)).2.direction =
      specLeftCycle (PlayerState.mk 2 3 0 false).direction ∧
    (rotate 1 (PlayerState.mk 2 3 1 false)).2.direction =
      specRightCycle (PlayerState.mk 2 3 1 false).direction ∧
    (rotate (-1) (PlayerState.mk 2 3 0 false)).1 = true :=
  ⟨(c6_rotate_cycles (PlayerState.mk 2 3 0 false) (-1) (by decide)).1.1 (by decide),
   (c6_rotate_cycles (PlayerState.mk 2 3 1 false) 1 (by decide)).1.2.1 (by decide),
   (c6_rotate_cycles (PlayerState.mk 2 3 0 false) (-1) (by decide)).1.2.2⟩

/-- C10: one left turn and one right turn always cancel: for every direction
`d < 4`, rotating with a positive delta after a negative delta (and vice
versa) returns the facing to `d` — the right-turn permutation is the inverse
of the left-turn permutation. -/
theorem c10_rotate_inverse (d : ℕ) (hd : d < 4) (dl dr : ℤ)
    (hl : dl < 0) (hr : 0 < dr) :
    rotateDir dr (rotateDir dl d) = d ∧ rotateDir dl (rotateDir dr d) = d := by
  have hnr : ¬ dr < 0 := by omega
  have hcase : d = 0 ∨ d = 1 ∨ d = 2 ∨ d = 3 := by omega
  simp only [rotateDir, if_pos hl, if_neg hnr]
  rcases hcase with h | h | h | h <;> rw [h] <;> decide

/-- Witness for C10 at direction 1 (East) with deltas -1 and +1. -/
theorem c10_rotate_inverse_witness :
    rotateDir 1 (rotateDir (-1) 1) = 1 ∧ rotateDir (-1) (rotateDir 1 1) = 1 :=
  c10_rotate_inverse 1 (by decide) (-1) 1 (by decide) (by decide)

/-- C2: after `updateDepth`, the paint ranks realize the total order with
primary key layer index ascending, secondary grid Y ascending, tertiary grid
X ascending: the ranked sequence is a permutation of the sprites, any sprite
strictly lexicographically below another is ranked strictly earlier, and
each sprite's assigned depth equals its position in the sorted sequence. -/
theorem c2_updateDepth_order (l : List DepthSprite) :
    List.Perm (updateDepth l) l ∧
    (∀ i j, (hi : i < (updateDepth l).length) → (hj : j < (updateDepth l).length) →
      spriteLexLT ((updateDepth l)[i]) ((updateDepth l)[j]) → i < j) ∧
    (∀ i, (hi : i < (updateDepth l).length) →
      (assignDepths l)[i]? = some ((updateDepth l)[i], i)) := by
  refine ⟨List.perm_insertionSort spriteOrder l, ?_, ?_⟩
  · intro i j hi hj hlt
    by_contra hij
    have hs : List.Sorted spriteOrder (updateDepth l) :=
      List.sorted_insertionSort spriteOrder l
    rcases Nat.lt_or_ge j i with hji | hge
    · have hrel : spriteOrder ((updateDepth l).get ⟨j, hj⟩) ((updateDepth l).get ⟨i, hi⟩) :=
        hs.rel_get_of_lt hji
      exact spriteOrder_not_lexLT hrel hlt
    · have hji : i = j := by omega
      subst hji
      unfold spriteLexLT at hlt
      omega
  · intro i hi
    have h := assignDepthsFrom_getElem? (updateDepth l) 0 i hi
    simpa using h

/-- Witness for C2 on a concrete four-sprite map (one prop-layer sprite,
three floor sprites out of grid order). -/
theorem c2_updateDepth_order_witness :
    List.Perm (updateDepth [⟨0, 0, 1⟩, ⟨5, 7, 0⟩, ⟨3, 2, 0⟩, ⟨3, 1, 0⟩])
      [⟨0, 0, 1⟩, ⟨5, 7, 0⟩, ⟨3, 2, 0⟩, ⟨3, 1, 0⟩] ∧
    (0 : ℕ) < 1 ∧
    (assignDepths [⟨0, 0, 1⟩, ⟨5, 7, 0⟩, ⟨3, 2, 0⟩, ⟨3, 1, 0⟩])[0]? =
      some ((updateDepth [⟨0, 0, 1⟩, ⟨5, 7, 0⟩, ⟨3, 2, 0⟩, ⟨3, 1, 0⟩]).get
        ⟨0, by decide⟩, 0) :=
  ⟨(c2_updateDepth_order _).1,
   (c2_updateDepth_order [⟨0, 0, 1⟩, ⟨5, 7, 0⟩, ⟨3, 2, 0⟩, ⟨3, 1, 0⟩]).2.1 0 1
     (by decide) (by decide) (by decide),
   (c2_updateDepth_order [⟨0, 0, 1⟩, ⟨5, 7, 0⟩, ⟨3, 2, 0⟩, ⟨3, 1, 0⟩]).2.2 0 (by decide)⟩

/-- C3: the drain executes exactly one entry at a time in call order: the
trace has entry `i` starting at position `2i` and its own completion signal
settling at position `2i + 1` — strictly before entry `i + 1` starts at
position `2(i + 1)`; each entry's operation observes the state mutations of
all earlier entries (the final state is the in-order fold); and an entry
whose operation raises settles its own signal as a rejection
(`settleEvent` is `settleErr` exactly for a raising operation) while the
trace still contains the start of every later entry. -/
theorem c3_drain_serializes {σ : Type} (s : σ) (entries : List (QEntry σ)) :
    (drain s entries).1.length = 2 * entries.length ∧
    (drain s entries).2 = stateAfter s entries ∧
    ∀ i, (hi : i < entries.length) →
      (drain s entries).1[2 * i]? = some (QEvent.start i) ∧
      (drain s entries).1[2 * i + 1]? =
        some (settleEvent i entries[i] (stateAfter s (entries.take i))) := by
  obtain ⟨hlen, hstate, hidx⟩ := drainFrom_spec entries 0 s
  refine ⟨hlen, hstate, ?_⟩
  intro i hi
  simpa using hidx i hi

/-- Witness for C3: three calls — the second one raising — drain to a
six-event trace, the raising entry rejects its own signal at position 3, the
third entry still starts at position 4, and the final state folds the first
and third mutations in call order. -/
theorem c3_drain_serializes_witness :
    (drain (0 : ℤ)
        [QEntry.mk "moveForward" (fun st => (Except.ok true, st + 1)),
         QEntry.mk "dropItem" (fun st => (Except.error "boom", st)),
         QEntry.mk "rotateLeft" (fun st => (Except.ok false, st + 10))]).1.length = 6 ∧
    (drain (0 : ℤ)
        [QEntry.mk "moveForward" (fun st => (Except.ok true, st + 1)),
         QEntry.mk "dropItem" (fun st => (Except.error "boom", st)),
         QEntry.mk "rotateLeft" (fun st => (Except.ok false, st + 10))]).2 = 11 ∧
    (drain (0 : ℤ)
        [QEntry.mk "moveForward" (fun st => (Except.ok true, st + 1)),
         QEntry.mk "dropItem" (fun st => (Except.error "boom", st)),
         QEntry.mk "rotateLeft" (fun st => (Except.ok false, st + 10))]).1[3]? =
      some (QEvent.settleErr 1 "boom") ∧
    (drain (0 : ℤ)
        [QEntry.mk "moveForward" (fun st => (Except.ok true, st + 1)),
         QEntry.mk "dropItem" (fun st => (Except.error "boom", st)),
         QEntry.mk "rotateLeft" (fun st => (Except.ok false, st + 10))]).1[4]? =
      some (QEvent.start 2) := by
  have h := c3_drain_serializes (0 : ℤ)
    [QEntry.mk "moveForward" (fun st => (Except.ok true, st + 1)),
     QEntry.mk "dropItem" (fun st => (Except.error "boom", st)),
     QEntry.mk "rotateLeft" (fun st => (Except.ok false, st + 10))]
  refine ⟨h.1.trans (by rfl), h.2.1.trans (by rfl), ?_, ?_⟩
  · have h3 := (h.2.2 1 (by decide)).2
    exact h3.trans (by rfl)
  · have h4 := (h.2.2 2 (by decide)).1
    exact h4.trans (by rfl)

/-- C4: `moveTo(x, y)` called mid-transition, or with an out-of-bounds
target, or with the target cell obstructed on the `Props` layer, returns
`false` and leaves the player state identical to the state before the
call. -/
theorem c4_moveTo_failure_no_state_change (m : Tilemap) (s : PlayerState) (x y : ℤ)
    (h : s.isMoving = true ∨
         x < 0 ∨ x ≥ m.mapWidth ∨ y < 0 ∨ y ≥ m.mapHeight ∨
         hasTileAt m x y "Props" = true) :
    moveTo m s x y = (false, s) := by
  unfold moveTo
  split_ifs with h1 h2 h3
  · rfl
  · rfl
  · rfl
  · exfalso
    rcases h with h | h | h | h | h | h
    · exact h1 h
    · exact h2 (Or.inl h)
    · exact h2 (Or.inr (Or.inl h))
    · exact h2 (Or.inr (Or.inr (Or.inl h)))
    · exact h2 (Or.inr (Or.inr (Or.inr h)))
    · exact h3 h

/-- Witness for C4: on an 8×8 map with a prop at (1,1), a resting player at
(0,0) fails to move onto the prop and keeps its full state. -/
theorem c4_moveTo_failure_no_state_change_witness :
    moveTo (Tilemap.mk 8 8 [("Props", [TSprite.mk 1 1 7])])
      (PlayerState.mk 0 0 0 false) 1 1 =
      (false, PlayerState.mk 0 0 0 false) :=
  c4_moveTo_failure_no_state_change (Tilemap.mk 8 8 [("Props", [TSprite.mk 1 1 7])])
    (PlayerState.mk 0 0 0 false) 1 1 (by decide)

/-- C5: `moveForward(n)` / `moveBackward(n)` (`_multiStep`) decompose into up
to `n` sequential single-cell `moveTo` calls with the fixed per-direction
displacement; when the first `k - 1` target cells are free and the `k`-th is
blocked or out of bounds, the run reports `false`, the player ends exactly
`k - 1` cells advanced from its start (earlier steps are not rolled back),
and exactly the first `k` single-cell targets were issued — no further
steps. -/
theorem c5_multiStep_partial_failure (m : Tilemap) (sign : ℤ) (n k : ℕ)
    (s : PlayerState)
    (hmv : s.isMoving = false) (hk1 : 1 ≤ k) (hkn : k ≤ n)
    (hfree : ∀ i : ℕ, 1 ≤ i → i < k →
      cellFree m (s.gridX + (i : ℤ) * (stepDelta sign s.direction).1)
        (s.gridY + (i : ℤ) * (stepDelta sign s.direction).2))
    (hblock : ¬ cellFree m (s.gridX + (k : ℤ) * (stepDelta sign s.direction).1)
        (s.gridY + (k : ℤ) * (stepDelta sign s.direction).2)) :
    multiStep m sign n s =
      (false,
       ⟨s.gridX + ((k : ℤ) - 1) * (stepDelta sign s.direction).1,
        s.gridY + ((k : ℤ) - 1) * (stepDelta sign s.direction).2,
        s.direction, false⟩,
       stepTargets s.gridX s.gridY (stepDelta sign s.direction).1
         (stepDelta sign s.direction).2 k) := by
  induction k generalizing s n with
  | zero => omega
  | succ k' ih =>
    obtain ⟨gx, gy, dir, mv⟩ := s
    simp only at hmv hfree hblock ⊢
    subst mv
    obtain ⟨n', rfl⟩ : ∃ n', n = n' + 1 := ⟨n - 1, by omega⟩
    push_cast at hblock hfree
    set d := stepDelta sign dir with hd
    by_cases hk0 : k' = 0
    · subst hk0
      have hb1 : ¬ cellFree m (gx + d.1) (gy + d.2) := by
        intro h
        apply hblock
        have e1 : gx + (((0 : ℕ) : ℤ) + 1) * d.1 = gx + d.1 := by push_cast; ring
        have e2 : gy + (((0 : ℕ) : ℤ) + 1) * d.2 = gy + d.2 := by push_cast; ring
        rw [e1, e2]
        exact h
      simp only [multiStep]
      rw [moveTo_blocked rfl hb1]
      simp only [Bool.false_eq_true, if_false, stepTargets, Prod.mk.injEq,
        PlayerState.mk.injEq, List.cons.injEq, true_and, and_true]
      constructor <;> push_cast <;> ring
    · have h1 : cellFree m (gx + d.1) (gy + d.2) := by
        have h := hfree 1 le_rfl (by omega)
        have e1 : gx + (((1 : ℕ) : ℤ)) * d.1 = gx + d.1 := by push_cast; ring
        have e2 : gy + (((1 : ℕ) : ℤ)) * d.2 = gy + d.2 := by push_cast; ring
        rw [e1, e2] at h
        exact h
      simp only [multiStep]
      rw [moveTo_success rfl h1]
      simp only [if_true, stepTargets]
      have hrec := ih n' ⟨gx + d.1, gy + d.2, dir, false⟩ rfl (by omega) (by omega)
        ?_ ?_
      · simp only at hrec
        rw [hrec]
        simp only [Prod.mk.injEq, PlayerState.mk.injEq, List.cons.injEq,
          true_and, and_true]
        constructor <;> push_cast <;> ring
      · intro i hi1 hik
        show cellFree m (gx + d.1 + (i : ℤ) * d.1) (gy + d.2 + (i : ℤ) * d.2)
        have h := hfree (i + 1) (by omega) (by omega)
        have e1 : gx + (((i + 1 : ℕ)) : ℤ) * d.1 = gx + d.1 + (i : ℤ) * d.1 := by
          push_cast
          ring
        have e2 : gy + (((i + 1 : ℕ)) : ℤ) * d.2 = gy + d.2 + (i : ℤ) * d.2 := by
          push_cast
          ring
        rw [e1, e2] at h
        exact h
      · intro h
        apply hblock
        show cellFree m (gx + ((k' : ℤ) + 1) * d.1) (gy + ((k' : ℤ) + 1) * d.2)
        have e1 : gx + ((k' : ℤ) + 1) * d.1 = gx + d.1 + (k' : ℤ) * d.1 := by ring
        have e2 : gy + ((k' : ℤ) + 1) * d.2 = gy + d.2 + (k' : ℤ) * d.2 := by ring
        rw [e1, e2]
        exact h

/-- Witness for C5: on an 8×8 map with a prop at (1,4), `moveForward(5)` from
(1,1) facing South advances exactly two cells to (1,3), reports `false`, and
issues exactly the three targets (1,2), (1,3), (1,4). -/
theorem c5_multiStep_partial_failure_witness :
    multiStep (Tilemap.mk 8 8 [("Props", [TSprite.mk 1 4 9])]) 1 5
      (PlayerState.mk 1 1 0 false) =
      (false, PlayerState.mk 1 3 0 false, [(1, 2), (1, 3), (1, 4)]) :=
  (c5_multiStep_partial_failure (Tilemap.mk 8 8 [("Props", [TSprite.mk 1 4 9])])
    1 5 3 (PlayerState.mk 1 1 0 false) rfl (by decide) (by decide)
    (by
      intro i h1 h2
      interval_cases i <;> decide)
    (by decide)).trans (by decide)

/-- C8: `completeLevel(n)` is idempotent on the persisted completed list:
starting from a sorted duplicate-free list, it yields a sorted
duplicate-free list containing `n` exactly once, and a second
`completeLevel(n)` leaves that list unchanged. -/
theorem c8_completeLevel_idempotent (n : ℤ) (completed : List ℤ)
    (hs : completed.Sorted (· ≤ ·)) (hnd : completed.Nodup) :
    completeLevel n (completeLevel n completed) = completeLevel n completed ∧
    (completeLevel n completed).Sorted (· ≤ ·) ∧
    (completeLevel n completed).Nodup ∧
    (completeLevel n completed).count n = 1 := by
  by_cases hmem : n ∈ completed
  · have h1 : completeLevel n completed = completed := by
      rw [completeLevel, if_pos hmem]
    refine ⟨?_, ?_, ?_, ?_⟩
    · simp [h1]
    · rw [h1]
      exact hs
    · rw [h1]
      exact hnd
    · rw [h1]
      exact List.count_eq_one_of_mem hnd hmem
  · have h1 : completeLevel n completed =
        List.insertionSort (· ≤ ·) (completed ++ [n]) := by
      rw [completeLevel, if_neg hmem]
    have hperm : List.Perm (List.insertionSort (· ≤ ·) (completed ++ [n]))
        (completed ++ [n]) := List.perm_insertionSort _ _
    have hmem2 : n ∈ completeLevel n completed := by
      rw [h1, hperm.mem_iff]
      simp
    refine ⟨?_, ?_, ?_, ?_⟩
    · rw [completeLevel, if_pos hmem2]
    · rw [h1]
      exact List.sorted_insertionSort _ _
    · rw [h1]
      refine hperm.nodup_iff.mpr ?_
      simp [List.nodup_append, hnd, hmem]
    · rw [h1, hperm.count_eq, List.count_append,
        List.count_eq_zero_of_not_mem hmem]
      simp

/-- Witness for C8: completing level 3 twice over the persisted list [1, 2]
keeps the list sorted and duplicate-free with 3 present exactly once. -/
theorem c8_completeLevel_idempotent_witness :
    completeLevel 3 (completeLevel 3 [1, 2]) = completeLevel 3 [1, 2] ∧
    (completeLevel 3 [1, 2]).Sorted (· ≤ ·) ∧
    (completeLevel 3 [1, 2]).Nodup ∧
    (completeLevel 3 [1, 2]).count 3 = 1 :=
  c8_completeLevel_idempotent 3 [1, 2] (by decide) (by decide)

/-- C9 counterexample: a stored value that parses to the well-formed JSON
number 42 — which is not a valid `ProgressRecord` shape — is returned by
`getProgress` as-is, not replaced by the default record, refuting the claim
that every corrupted persisted value degrades to the default. -/
theorem c9_counterexample :
    getProgress (some (some (JVal.num 42))) = JVal.num 42 ∧
    isProgressRecordShape (JVal.num 42) = false ∧
    JVal.num 42 ≠ defaultProgress := by
  refine ⟨rfl, rfl, ?_⟩
  intro h
  cases h

/-- C9 (amended): `getProgress` returns the default record
`{currentLevel: 1, completed: []}` and never raises when the persisted value
is absent or unparseable (the `try/catch` swallows the parse error); a value
that parses is returned as-is, even when it is not a valid `ProgressRecord`
shape. -/
theorem c9_getProgress_amended (slot : Option (Option JVal)) :
    ((slot = none ∨ slot = some none) → getProgress slot = defaultProgress) ∧
    (∀ v, slot = some (some v) → getProgress slot = v) := by
  constructor
  · rintro (rfl | rfl) <;> rfl
  · rintro v rfl
    rfl

/-- Witness for C9 (amended): nothing stored yields the default; a stored
value parsing to the string "x" is returned verbatim. -/
theorem c9_getProgress_amended_witness :
    getProgress none = defaultProgress ∧
    getProgress (some (some (JVal.str "x"))) = JVal.str "x" :=
  ⟨(c9_getProgress_amended none).1 (Or.inl rfl),
   (c9_getProgress_amended (some (some (JVal.str "x")))).2 (JVal.str "x") rfl⟩

end MikeStudio
